import Mathlib

/-!
Shallow embedding of the asana-mytasks-sorter repository (Go) for checking its
natural-language specification.

Modelling conventions, justified against the source:

* Calendar dates are represented by absolute day numbers (`Int`): Gregorian
  `(year, month, day)` triples are in bijection with day counts, and the code
  only ever builds midnights from such triples and compares/subtracts the
  resulting instants, so the bijection is faithful.
* A Go `time.Location` is modelled by its UTC-offset function
  `off : Int → Int`, giving the offset in seconds (east of UTC) in effect at
  the *local midnight* of each local calendar day.  `time.Date(y, m, d,
  0,0,0,0, loc)` for the day numbered `d` denotes the absolute instant
  `d*86400 - off d` (in seconds).  Only the offsets at the two midnights that
  the categorizer constructs are ever consulted, so this captures exactly the
  part of a location the code uses, DST transitions included.
* A Go `time.Time` (`now`) is modelled by its local calendar day, its local
  second-of-day, and its location (`GoTime` below).  `now.Year()/.Month()/
  .Day()` extract the local calendar day; `now.Location()` the location.
* The `asana.Date` field `DueOn` is parsed from `"2006-01-02"` in UTC, so its
  `Year()/Month()/Day()` are the written calendar date; the zero value
  (absent/null due date, `IsZero`) is modelled as `none`, and a present date
  as `some dayNumber`.
* `int(d.Hours() / 24)` on a `time.Duration` `d` that is a whole number of
  seconds `s ≥ 0` equals `s / 86400` (integer division): the true value
  `s/86400` is either an integer (hit exactly: every quantity is exactly
  representable or correctly rounded far below the 1/86400 gap to the next
  integer) or at distance ≥ 1/86400 from one, while the float error is
  < 1e-9, so truncation cannot cross an integer boundary; for s ≥ 0
  truncation toward zero and floor agree.  The categorizer only evaluates it
  on positive differences (the strictly-future branch).
* Go maps are modelled extensionally: `map[string]string` as
  `String → Option String` (comma-ok lookup), `map[string]bool` as
  `String → Bool` (zero-value lookup).  Where iteration order of a map
  matters (the presenter ranges over a `map[TaskCategory]string`), the
  iteration order is an explicit parameter constrained to be a permutation
  of the map's entries, which is exactly what the Go specification
  guarantees (some unspecified order of the five entries).
* Side effects: the HTTP client is modelled as a deterministic oracle record
  (`API`), and the orchestration functions additionally return the trace of
  mutating calls (section creations, task moves) they perform, in order.
-/

namespace AsanaSorter

/-- `asana.TaskCategory` (client.go / part_005): five categories. -/
inductive TaskCategory where
  | overdue
  | dueToday
  | dueThisWeek
  | dueLater
  | noDate
deriving DecidableEq, Repr

/-- `asana.AssigneeSection` (part_005): the task's current section reference. -/
structure AssigneeSection where
  gid : String
  name : String
deriving DecidableEq, Repr

/-- `asana.Task` (part_005): `DueOn` is `none` when the date is absent
(`Date.IsZero`), otherwise `some` absolute day number; `dueAt` is the
(irrelevant to all logic) due datetime, kept as an opaque instant in seconds. -/
structure Task where
  gid : String
  name : String
  completed : Bool
  dueOn : Option Int
  dueAt : Int
  assigneeSection : AssigneeSection
deriving DecidableEq, Repr

/-- `asana.Section`. -/
structure Section where
  gid : String
  name : String
deriving DecidableEq, Repr

/-- A Go `time.Time` together with its location: local calendar day number,
local second-of-day, and the location's UTC-offset function (seconds east of
UTC in effect at the local midnight of each local day). -/
structure GoTime where
  day : Int
  secOfDay : Int
  off : Int → Int

/-- The absolute instant (in seconds) of `time.Date(y, m, d, 0, 0, 0, 0, loc)`
for the local calendar day numbered `d` under offset function `off`. -/
def midnightInstant (off : Int → Int) (d : Int) : Int :=
  d * 86400 - off d

/-- A sane location: its UTC offset never varies by a whole day or more
(real locations vary by at most a couple of hours across DST transitions). -/
def SaneLoc (off : Int → Int) : Prop :=
  ∀ d₁ d₂ : Int, (off d₁ - off d₂).natAbs < 86400

/-- `(*Task).GetTaskCategory` (part_005 lines 155–183 / client.go 117–145),
embedded step for step:

* `t.DueOn.IsZero()` → the `none` case;
* `nowDate`, `dueDateNormalized` are the two midnights — see `midnightInstant`;
* `int(dueDateNormalized.Sub(nowDate).Hours() / 24)` is `/ 86400` on the
  (strictly positive, whole-second) difference, per the header note. -/
def Task.GetTaskCategory (t : Task) (now : GoTime) : TaskCategory :=
  match t.dueOn with
  | none => .noDate
  | some dueDay =>
    let nowDate := midnightInstant now.off now.day
    let dueDateNormalized := midnightInstant now.off dueDay
    if dueDateNormalized = nowDate then .dueToday
    else if dueDateNormalized < nowDate then .overdue
    else
      let days := (dueDateNormalized - nowDate) / 86400
      if days ≤ 7 then .dueThisWeek else .dueLater

/-- The categorization algorithm as worded by the spec (§4.1), for the
refinement claim about the Categorizer: absent → NoDate; normalize both dates
to midnight in the reference instant's location; equal → DueToday; earlier →
Overdue; otherwise the whole-day difference is the integer division of the
hour difference by 24, and ≤ 7 → DueThisWeek, else DueLater. -/
def specCategory (dueOn : Option Int) (now : GoTime) : TaskCategory :=
  match dueOn with
  | none => .noDate
  | some dueDay =>
    let nowMidnight := midnightInstant now.off now.day
    let dueMidnight := midnightInstant now.off dueDay
    if dueMidnight = nowMidnight then .dueToday
    else if dueMidnight < nowMidnight then .overdue
    else
      let hourDiff := (dueMidnight - nowMidnight) / 3600
      let wholeDays := hourDiff / 24
      if wholeDays ≤ 7 then .dueThisWeek else .dueLater

/-- `core.SectionConfig` (part_007 / client.go): category → section-name
configuration plus the ignored section names. -/
structure SectionConfig where
  overdue : String
  dueToday : String
  dueThisWeek : String
  dueLater : String
  noDate : String
  ignoredSections : List String
deriving DecidableEq, Repr

/-- `core.DefaultSectionConfig`. -/
def DefaultSectionConfig : SectionConfig :=
  { overdue := "Overdue"
    dueToday := "Due today"
    dueThisWeek := "Due within the next 7 days"
    dueLater := "Due later"
    noDate := "Recently assigned"
    ignoredSections := [] }

/-- `core.GetCategoryToSectionMap` (tasks.go 31–40): the Go map literal keyed
by all five categories is a total function. -/
def GetCategoryToSectionMap (config : SectionConfig) : TaskCategory → String
  | .overdue => config.overdue
  | .dueToday => config.dueToday
  | .dueThisWeek => config.dueThisWeek
  | .dueLater => config.dueLater
  | .noDate => config.noDate

/-- `core.TaskMove` (tasks.go 13–17). -/
structure TaskMove where
  task : Task
  sectionGID : String
  sectionName : String
deriving DecidableEq, Repr

/-- The body of the `for _, task := range tasks` loop of
`core.CalculateTaskMoves` (tasks.go 44–92) for one task: the at-most-one move
the loop appends for it.  The skips are, in source order: current section
ignored; target section ignored; already in the target section; target
section name absent from the name→GID map. -/
def moveForTask (config : SectionConfig) (sectionNameToGID : String → Option String)
    (ignoredSections : String → Bool) (now : GoTime) (task : Task) : Option TaskMove :=
  let currentSectionName := task.assigneeSection.name
  if ignoredSections currentSectionName then none
  else
    let category := task.GetTaskCategory now
    let targetSectionName := GetCategoryToSectionMap config category
    if ignoredSections targetSectionName then none
    else if currentSectionName = targetSectionName then none
    else
      match sectionNameToGID targetSectionName with
      | none => none
      | some sectionGID =>
        some { task := task, sectionGID := sectionGID, sectionName := targetSectionName }

/-- `core.CalculateTaskMoves` (tasks.go 44–92): the loop appends the per-task
move (when any) in input order, i.e. `filterMap` of `moveForTask`. -/
def CalculateTaskMoves (tasks : List Task) (config : SectionConfig)
    (sectionNameToGID : String → Option String) (ignoredSections : String → Bool)
    (now : GoTime) : List TaskMove :=
  tasks.filterMap (moveForTask config sectionNameToGID ignoredSections now)

/-- `core.CategorizeTasks` (tasks.go 20–29): appending each task to its
category's slice in input order builds, for each category, the input-order
sublist of tasks of that category (a missing key reads as the empty slice). -/
def CategorizeTasks (tasks : List Task) (now : GoTime) : TaskCategory → List Task :=
  fun category => tasks.filter (fun task => task.GetTaskCategory now = category)

/-- `core.CreateIgnoredSectionsMap` (tasks.go 156–163): membership map. -/
def CreateIgnoredSectionsMap (ignoredSections : List String) : String → Bool :=
  fun sectionName => ignoredSections.contains sectionName

/-- `core.CreateSectionNameToGIDMap` (tasks.go 165–172): later entries of the
slice overwrite earlier ones with the same name (last-seen wins). -/
def CreateSectionNameToGIDMap (sections : List Section) : String → Option String :=
  sections.foldl (fun m s => fun n => if n = s.name then some s.gid else m n)
    (fun _ => none)

/-- `asana.User`. -/
structure User where
  gid : String
  name : String
deriving DecidableEq, Repr

/-- `asana.Workspace`. -/
structure Workspace where
  gid : String
  name : String
deriving DecidableEq, Repr

/-- `asana.UserTaskList`. -/
structure UserTaskList where
  gid : String
  name : String
  owner : User
  workspace : Workspace
deriving DecidableEq, Repr

/-- A mutating call made against the remote service (`asana.API`):
`CreateSection` or `MoveTaskToSection`.  The read-only calls are answered by
the oracle and perform no remote mutation, so only these two are traced. -/
inductive MutCall where
  | createSection (projectGID name : String)
  | moveTask (sectionGID taskGID : String)
deriving DecidableEq, Repr

/-- The `asana.API` interface (interface.go), as a deterministic oracle: each
operation's response is a function of its arguments for the duration of one
run. -/
structure API where
  getCurrentUser : Except String User
  getWorkspaces : Except String (List Workspace)
  getUserTaskList : String → String → Except String UserTaskList
  getSectionsForProject : String → Except String (List Section)
  createSection : String → String → Except String Section
  getTasksFromUserTaskList : String → Except String (List Task)
  moveTaskToSection : String → String → Except String Unit

/-- Result of `core.EnsureRequiredSections` (tasks.go 95–119): the names for
which `CreateSection` was invoked (in order), the returned error if any, and
the final states of the two structures the Go function mutates in place
(`sectionNameToGID` and `*sections`). -/
structure EnsureOutcome where
  attempted : List String
  err : Option String
  sectionNameToGID : String → Option String
  sections : List Section

/-- The `for _, sectionName := range requiredSections` loop of
`core.EnsureRequiredSections`: a missing section is created; a creation
failure returns the wrapped error immediately (the remaining names are not
visited); a success updates the map and the slice. -/
def ensureSectionsLoop (create : String → Except String Section) :
    List String → (String → Option String) → List Section → EnsureOutcome
  | [], sectionNameToGID, sections => ⟨[], none, sectionNameToGID, sections⟩
  | sectionName :: rest, sectionNameToGID, sections =>
    if (sectionNameToGID sectionName).isSome then
      ensureSectionsLoop create rest sectionNameToGID sections
    else
      match create sectionName with
      | .error e =>
        ⟨[sectionName], some ("error creating section " ++ sectionName ++ ": " ++ e),
          sectionNameToGID, sections⟩
      | .ok newSection =>
        let out := ensureSectionsLoop create rest
          (fun n => if n = newSection.name then some newSection.gid else sectionNameToGID n)
          (sections ++ [newSection])
        ⟨sectionName :: out.attempted, out.err, out.sectionNameToGID, out.sections⟩

/-- The `requiredSections` slice built by `core.EnsureRequiredSections` (and,
identically, by the legacy `main.run`). -/
def requiredSections (config : SectionConfig) : List String :=
  [config.overdue, config.dueToday, config.dueThisWeek, config.dueLater, config.noDate]

/-- `core.EnsureRequiredSections` (tasks.go 95–119), with `create` standing
for `client.CreateSection(ctx, projectGID, ·)`. -/
def EnsureRequiredSections (create : String → Except String Section)
    (config : SectionConfig) (sectionNameToGID : String → Option String)
    (sections : List Section) : EnsureOutcome :=
  ensureSectionsLoop create (requiredSections config) sectionNameToGID sections

/-- The section-creation loop of the legacy driver `main.run` (main.go
114–137): same shape as `ensureSectionsLoop`, but a creation failure is only
printed and the loop `continue`s with the remaining missing sections.
Returns the attempted names (in order) and the final map and slice. -/
def runCreateSectionsLoop (create : String → Except String Section) :
    List String → (String → Option String) → List Section →
    List String × ((String → Option String) × List Section)
  | [], sectionNameToGID, sections => ([], (sectionNameToGID, sections))
  | sectionName :: rest, sectionNameToGID, sections =>
    if (sectionNameToGID sectionName).isSome then
      runCreateSectionsLoop create rest sectionNameToGID sections
    else
      match create sectionName with
      | .error _ =>
        let out := runCreateSectionsLoop create rest sectionNameToGID sections
        (sectionName :: out.1, out.2)
      | .ok newSection =>
        let out := runCreateSectionsLoop create rest
          (fun n => if n = newSection.name then some newSection.gid else sectionNameToGID n)
          (sections ++ [newSection])
        (sectionName :: out.1, out.2)

/-- Result of `core.ExecuteTaskMoves` (tasks.go 122–153): the
`(sectionGID, taskGID)` pairs for which `MoveTaskToSection` was invoked (in
call order), the failure count, and the returned error if any. -/
structure ExecOutcome where
  attempted : List (String × String)
  errors : Nat
  err : Option String

/-- The `for _, move := range taskMoves` loop of `core.ExecuteTaskMoves`:
every move is attempted; a failure only increments the error counter. -/
def executeMovesLoop (moveTaskToSection : String → String → Except String Unit) :
    List TaskMove → List (String × String) × Nat
  | [] => ([], 0)
  | move :: rest =>
    let failed : Nat :=
      match moveTaskToSection move.sectionGID move.task.gid with
      | .error _ => 1
      | .ok _ => 0
    let out := executeMovesLoop moveTaskToSection rest
    ((move.sectionGID, move.task.gid) :: out.1, failed + out.2)

/-- `core.ExecuteTaskMoves` (tasks.go 122–153), with `moveTaskToSection`
standing for `client.MoveTaskToSection(ctx, ·, ·)`: an empty plan returns
early; otherwise all moves are attempted and a single aggregate error is
returned iff the failure count is positive. -/
def ExecuteTaskMoves (moveTaskToSection : String → String → Except String Unit)
    (taskMoves : List TaskMove) : ExecOutcome :=
  match taskMoves with
  | [] => ⟨[], 0, none⟩
  | _ :: _ =>
    let out := executeMovesLoop moveTaskToSection taskMoves
    ⟨out.1, out.2,
      if 0 < out.2 then some (toString out.2 ++ " errors occurred while moving tasks")
      else none⟩

/-- `core.OrganizeTasks` (tasks.go 175–258), with `time.Now()` supplied as
the input instant `now`.  Returns the trace of mutating remote calls (in
order) alongside the Go function's `(map[TaskCategory][]Task, error)`
result. -/
def OrganizeTasks (client : API) (config : SectionConfig) (dryRun : Bool)
    (now : GoTime) : List MutCall × Except String (TaskCategory → List Task) :=
  match client.getCurrentUser with
  | .error e => ([], .error ("error getting current user: " ++ e))
  | .ok user =>
  match client.getWorkspaces with
  | .error e => ([], .error ("error getting workspaces: " ++ e))
  | .ok workspaces =>
  match workspaces with
  | [] => ([], .error "no workspaces found for user")
  | workspace :: _ =>
  match client.getUserTaskList user.gid workspace.gid with
  | .error e => ([], .error ("error getting user task list: " ++ e))
  | .ok userTaskList =>
  match client.getSectionsForProject userTaskList.gid with
  | .error e => ([], .error ("error getting sections: " ++ e))
  | .ok sections =>
  let sectionNameToGID := CreateSectionNameToGIDMap sections
  let ensured :=
    if dryRun then (⟨[], none, sectionNameToGID, sections⟩ : EnsureOutcome)
    else EnsureRequiredSections (client.createSection userTaskList.gid) config
      sectionNameToGID sections
  let createTrace := ensured.attempted.map (MutCall.createSection userTaskList.gid)
  match ensured.err with
  | some e => (createTrace, .error ("error ensuring required sections: " ++ e))
  | none =>
  let ignoredSections := CreateIgnoredSectionsMap config.ignoredSections
  match client.getTasksFromUserTaskList userTaskList.gid with
  | .error e => (createTrace, .error ("error getting tasks from user task list: " ++ e))
  | .ok allTasks =>
  let categorizedTasks := CategorizeTasks allTasks now
  let taskMoves := CalculateTaskMoves allTasks config ensured.sectionNameToGID
    ignoredSections now
  if !dryRun && !taskMoves.isEmpty then
    let exec := ExecuteTaskMoves client.moveTaskToSection taskMoves
    let moveTrace := exec.attempted.map (fun p => MutCall.moveTask p.1 p.2)
    match exec.err with
    | some e => (createTrace ++ moveTrace, .error ("error executing task moves: " ++ e))
    | none => (createTrace ++ moveTrace, .ok categorizedTasks)
  else (createTrace, .ok categorizedTasks)

/-- One rendered task line of `ui.DisplayTasks` (display.go 40–55): the
1-based ordinal (`i+1`), the task name, and the due date when present (ANSI
styling elided; the printed data is kept). -/
structure TaskLine where
  ordinal : Nat
  name : String
  dueOn : Option Int
deriving DecidableEq, Repr

/-- One rendered group of `ui.DisplayTasks`: the section header (name plus
task count) and the task lines. -/
structure GroupRender where
  sectionName : String
  count : Nat
  lines : List TaskLine
deriving DecidableEq, Repr

/-- The whole output of `ui.DisplayTasks`: groups in iteration order, the
trailing summary counters, and whether the dry-run notice is printed. -/
structure DisplayOutput where
  groups : List GroupRender
  totalTasks : Nat
  sectionsWithTasks : Nat
  dryRunNotice : Bool
deriving DecidableEq, Repr

/-- The inner `for i, task := range tasks` loop of `ui.DisplayTasks`. -/
def renderLines (tasks : List Task) : List TaskLine :=
  tasks.enum.map (fun p => ⟨p.1 + 1, p.2.name, p.2.dueOn⟩)

/-- The five entries of the `map[TaskCategory]string` built by
`core.GetCategoryToSectionMap`, in the order of the map literal.  A Go map
iteration visits exactly these entries, in some unspecified order. -/
def categoryToSectionEntries (config : SectionConfig) : List (TaskCategory × String) :=
  [(.overdue, config.overdue), (.dueToday, config.dueToday),
   (.dueThisWeek, config.dueThisWeek), (.dueLater, config.dueLater),
   (.noDate, config.noDate)]

/-- `ui.DisplayTasks` (display.go 10–70).  The
`for category, sectionName := range categoryToSection` loop ranges over a Go
map, so the iteration order `iter` is an explicit parameter (some permutation
of `categoryToSectionEntries`); a group is rendered only when
`len(tasks) > 0`; `totalTasks` and `sectionsWithTasks` accumulate over the
rendered groups. -/
def DisplayTasks (categorizedTasks : TaskCategory → List Task)
    (iter : List (TaskCategory × String)) (dryRun : Bool) : DisplayOutput :=
  let groups := iter.filterMap (fun p =>
    let tasks := categorizedTasks p.1
    if tasks.isEmpty then none
    else some ⟨p.2, tasks.length, renderLines tasks⟩)
  { groups := groups
    totalTasks := (groups.map (fun g => g.count)).sum
    sectionsWithTasks := groups.length
    dryRunNotice := dryRun }

/-! Concrete inputs used by witnesses and counterexamples. -/

/-- A fixed-offset location (UTC): the offset never changes. -/
def utcLoc : Int → Int := fun _ => 0

/-- A location that springs forward one hour between local day 0 and local
day 1: offset UTC+0 up to day 0, UTC+1 from day 1 on — the shape of any IANA
zone around its spring DST transition. -/
def dstLoc : Int → Int := fun d => if 1 ≤ d then 3600 else 0

/-- A concrete reference instant: noon of local day 0 in a UTC location. -/
def exNow : GoTime := { day := 0, secOfDay := 43200, off := utcLoc }

/-- A concrete task with no due date, sitting in section "Inbox". -/
def exTaskNoDate : Task :=
  { gid := "t3", name := "Follow up", completed := false, dueOn := none,
    dueAt := 0, assigneeSection := { gid := "sec1", name := "Inbox" } }

/-- An ignored-set with one name, not containing any section of `exTaskNoDate`
or of the default configuration targets. -/
def exIgnored : String → Bool := CreateIgnoredSectionsMap ["Waiting For"]

/-- A name→GID map knowing only the default NoDate target section. -/
def exGidMap : String → Option String :=
  fun n => if n = "Recently assigned" then some "gid-nodate" else none

/-- An empty name→GID map (no section has a known identifier). -/
def exGidMapEmpty : String → Option String := fun _ => none

/-- The move the planner emits for `exTaskNoDate` under `exGidMap`. -/
def exMoveNoDate : TaskMove :=
  { task := exTaskNoDate, sectionGID := "gid-nodate", sectionName := "Recently assigned" }

/-- A section-creation oracle that always fails. -/
def failingCreate : String → Except String Section := fun _ => .error "boom"

/-- A categorized map with one Overdue task and one DueToday task, all other
categories empty. -/
def exCategorized : TaskCategory → List Task
  | .overdue =>
    [{ gid := "t4", name := "Pay rent", completed := false, dueOn := some (-1),
       dueAt := 0, assigneeSection := { gid := "sec1", name := "Inbox" } }]
  | .dueToday =>
    [{ gid := "t5", name := "Standup", completed := false, dueOn := some 0,
       dueAt := 0, assigneeSection := { gid := "sec1", name := "Inbox" } }]
  | _ => []

/-- A legal Go iteration order over the five entries of the default
category→section map: their reverse. -/
def exIter : List (TaskCategory × String) :=
  (categoryToSectionEntries DefaultSectionConfig).reverse

/-- A concrete API oracle: login, workspace, task list, (no) sections and
(no) tasks all succeed, but every section creation fails. -/
def exFailingCreateAPI : API :=
  { getCurrentUser := .ok { gid := "u1", name := "Dave" }
    getWorkspaces := .ok [{ gid := "w1", name := "Personal" }]
    getUserTaskList := fun _ _ => .ok
      { gid := "utl1", name := "My Tasks", owner := { gid := "u1", name := "Dave" },
        workspace := { gid := "w1", name := "Personal" } }
    getSectionsForProject := fun _ => .ok []
    createSection := fun _ _ => .error "boom"
    getTasksFromUserTaskList := fun _ => .ok []
    moveTaskToSection := fun _ _ => .ok () }

/-! ## Theorems -/

/-- Unfolding lemma: the categorizer on a present due date. -/
theorem getTaskCategory_of_dueOn_some (t : Task) (now : GoTime) (d : Int)
    (h : t.dueOn = some d) :
    t.GetTaskCategory now =
      (if midnightInstant now.off d = midnightInstant now.off now.day then .dueToday
       else if midnightInstant now.off d < midnightInstant now.off now.day then .overdue
       else if (midnightInstant now.off d - midnightInstant now.off now.day) / 86400 ≤ 7
         then .dueThisWeek else .dueLater) := by
  unfold Task.GetTaskCategory
  rw [h]

/-- C2: for every task and reference instant the Categorizer returns exactly
the category prescribed by the spec's algorithm: absent due date → NoDate;
equal normalized midnights → DueToday; earlier normalized due date → Overdue;
otherwise the whole-day difference (integer division of the hour difference
by 24) decides DueThisWeek (≤ 7) versus DueLater. -/
theorem getTaskCategory_matches_spec_algorithm (t : Task) (now : GoTime) :
    t.GetTaskCategory now = specCategory t.dueOn now := by
  unfold Task.GetTaskCategory specCategory
  cases t.dueOn with
  | none => rfl
  | some dueDay =>
    simp only
    by_cases h1 : midnightInstant now.off dueDay = midnightInstant now.off now.day
    · simp [h1]
    · by_cases h2 : midnightInstant now.off dueDay < midnightInstant now.off now.day
      · simp [h1, h2]
      · have hdiv :
            (midnightInstant now.off dueDay - midnightInstant now.off now.day) / 3600 / 24
              = (midnightInstant now.off dueDay - midnightInstant now.off now.day) / 86400 := by
          omega
        simp [h1, h2, hdiv]

/-- C3 counterexample: in a sane location that springs forward one hour
between the reference day and the due date, a task due exactly 8 calendar
days after the reference date is categorized DueThisWeek, not DueLater
(the 191-hour interval gives `int(191.h/24) = 7 ≤ 7`). -/
theorem dueInEightDays_notDueLater_across_dst :
    SaneLoc dstLoc ∧
    Task.GetTaskCategory
      { gid := "t1", name := "report", completed := false, dueOn := some 8,
        dueAt := 0, assigneeSection := { gid := "s1", name := "Inbox" } }
      { day := 0, secOfDay := 43200, off := dstLoc } = TaskCategory.dueThisWeek ∧
    TaskCategory.dueThisWeek ≠ TaskCategory.dueLater := by
  refine ⟨?_, rfl, by decide⟩
  intro d₁ d₂
  unfold dstLoc
  split <;> split <;> decide

/-- C3 amended: for any sane location (offsets never differing by a whole
day) and any reference instant, a task due 1–7 calendar days after the
reference date is DueThisWeek; one due 9 or more days after is DueLater; and
one due exactly 8 days after is DueLater precisely when the offset at the
due date's midnight does not exceed the offset at the reference midnight
(in particular always in fixed-offset locations), and DueThisWeek when a
transition raises the offset in between. -/
theorem getTaskCategory_future_boundary (now : GoTime) (hsane : SaneLoc now.off)
    (t : Task) (k : Int) (hdue : t.dueOn = some (now.day + k)) :
    (1 ≤ k → k ≤ 7 → t.GetTaskCategory now = TaskCategory.dueThisWeek) ∧
    (9 ≤ k → t.GetTaskCategory now = TaskCategory.dueLater) ∧
    (k = 8 → (t.GetTaskCategory now = TaskCategory.dueLater ↔
      now.off (now.day + k) ≤ now.off now.day)) := by
  have hδ := hsane (now.day + k) now.day
  rw [getTaskCategory_of_dueOn_some t now _ hdue]
  unfold midnightInstant
  refine ⟨?_, ?_, ?_⟩
  · intro hk1 hk7
    rw [if_neg (by omega), if_neg (by omega), if_pos (by omega)]
  · intro hk9
    rw [if_neg (by omega), if_neg (by omega), if_neg (by omega)]
  · intro hk8
    subst hk8
    constructor
    · intro hres
      by_contra hgt
      rw [if_neg (by omega), if_neg (by omega), if_pos (by omega)] at hres
      exact absurd hres (by decide)
    · intro hle
      rw [if_neg (by omega), if_neg (by omega), if_neg (by omega)]

/-- Witness for the amended C3 theorem at a concrete input: UTC location,
reference day 0, task due on day 7 (`k = 7`). -/
theorem getTaskCategory_future_boundary_witness :
    ((1 : Int) ≤ 7 → (7 : Int) ≤ 7 →
      Task.GetTaskCategory
        { gid := "t6", name := "plan", completed := false, dueOn := some (exNow.day + 7),
          dueAt := 0, assigneeSection := { gid := "s1", name := "Inbox" } } exNow =
        TaskCategory.dueThisWeek) ∧
    ((9 : Int) ≤ 7 →
      Task.GetTaskCategory
        { gid := "t6", name := "plan", completed := false, dueOn := some (exNow.day + 7),
          dueAt := 0, assigneeSection := { gid := "s1", name := "Inbox" } } exNow =
        TaskCategory.dueLater) ∧
    ((7 : Int) = 8 →
      (Task.GetTaskCategory
        { gid := "t6", name := "plan", completed := false, dueOn := some (exNow.day + 7),
          dueAt := 0, assigneeSection := { gid := "s1", name := "Inbox" } } exNow =
        TaskCategory.dueLater ↔ exNow.off (exNow.day + 7) ≤ exNow.off exNow.day)) :=
  getTaskCategory_future_boundary exNow
    (fun _ _ => by show ((0 : Int) - (0 : Int)).natAbs < 86400; decide) _ 7 rfl

/-- C10: the computed category depends only on the task's DueOn field and the
reference instant; name, completion flag, due datetime and current section
are irrelevant. -/
theorem getTaskCategory_depends_only_on_dueOn (t₁ t₂ : Task) (now : GoTime)
    (h : t₁.dueOn = t₂.dueOn) :
    t₁.GetTaskCategory now = t₂.GetTaskCategory now := by
  unfold Task.GetTaskCategory
  rw [h]

/-- Witness for C10: two tasks agreeing on DueOn but differing in gid, name,
completion, DueAt and current section get the same category. -/
theorem getTaskCategory_depends_only_on_dueOn_witness :
    Task.GetTaskCategory
      { gid := "a", name := "A", completed := false, dueOn := some 3, dueAt := 0,
        assigneeSection := { gid := "s1", name := "Inbox" } } exNow =
    Task.GetTaskCategory
      { gid := "b", name := "B", completed := true, dueOn := some 3, dueAt := 999,
        assigneeSection := { gid := "s2", name := "Doing" } } exNow :=
  getTaskCategory_depends_only_on_dueOn _ _ _ rfl

/-- If `g` recovers the input of `f` on every hit, mapping `g` over
`filterMap f` yields an order-preserving subsequence of the input list. -/
theorem map_filterMap_sublist_of_recover {α β : Type} (f : α → Option β) (g : β → α)
    (h : ∀ a b, f a = some b → g b = a) (l : List α) :
    ((l.filterMap f).map g).Sublist l := by
  induction l with
  | nil => simp
  | cons a l ih =>
    rw [List.filterMap_cons]
    cases hfa : f a with
    | none => exact ih.cons a
    | some b =>
      rw [List.map_cons, h a b hfa]
      exact ih.cons₂ a

/-- Everything the per-task planner body guarantees when it emits a move:
the move references that task; neither its current nor the target section is
ignored; the task is not already in the target; the target has a known GID;
and the target is the configured section of the task's category. -/
theorem moveForTask_some_spec (config : SectionConfig)
    (sectionNameToGID : String → Option String) (ignoredSections : String → Bool)
    (now : GoTime) (task : Task) (move : TaskMove)
    (h : moveForTask config sectionNameToGID ignoredSections now task = some move) :
    move.task = task ∧
    ignoredSections task.assigneeSection.name = false ∧
    ignoredSections move.sectionName = false ∧
    task.assigneeSection.name ≠ move.sectionName ∧
    sectionNameToGID move.sectionName = some move.sectionGID ∧
    move.sectionName = GetCategoryToSectionMap config (task.GetTaskCategory now) := by
  simp only [moveForTask] at h
  split at h
  next hc1 => exact absurd h (by simp)
  next hc1 =>
    split at h
    next hc2 => exact absurd h (by simp)
    next hc2 =>
      split at h
      next hc3 => exact absurd h (by simp)
      next hc3 =>
        split at h
        next hgid => exact absurd h (by simp)
        next gid hgid =>
          cases h
          simp only [Bool.not_eq_true] at hc1 hc2
          exact ⟨rfl, hc1, hc2, hc3, hgid, rfl⟩

/-- C1: the Move Planner is a pure function (embedded as such, since the
source performs no side effects), so identical inputs give identical output;
and the output is order-preserving: the tasks of the emitted moves form an
order-preserving subsequence of the input task list. -/
theorem calculateTaskMoves_deterministic_order_preserving
    (tasks : List Task) (config : SectionConfig)
    (sectionNameToGID : String → Option String) (ignoredSections : String → Bool)
    (now : GoTime) :
    CalculateTaskMoves tasks config sectionNameToGID ignoredSections now =
      CalculateTaskMoves tasks config sectionNameToGID ignoredSections now ∧
    ((CalculateTaskMoves tasks config sectionNameToGID ignoredSections now).map
      TaskMove.task).Sublist tasks :=
  ⟨rfl, map_filterMap_sublist_of_recover _ TaskMove.task
    (fun a m hm => (moveForTask_some_spec _ _ _ _ a m hm).1) tasks⟩

/-- C4: no emitted move involves the ignored set — the moved task's current
section is never ignored, and the move's target section is never ignored. -/
theorem calculateTaskMoves_never_touches_ignored
    (tasks : List Task) (config : SectionConfig)
    (sectionNameToGID : String → Option String) (ignoredSections : String → Bool)
    (now : GoTime) (move : TaskMove)
    (hmem : move ∈ CalculateTaskMoves tasks config sectionNameToGID ignoredSections now) :
    ignoredSections move.task.assigneeSection.name = false ∧
    ignoredSections move.sectionName = false := by
  obtain ⟨a, _, hsome⟩ := List.mem_filterMap.mp hmem
  obtain ⟨h1, h2, h3, -, -, -⟩ := moveForTask_some_spec _ _ _ _ a move hsome
  refine ⟨?_, h3⟩
  rw [h1]
  exact h2

/-- Witness for C4 at a concrete input: a no-date task in "Inbox" is planned
into "Recently assigned"; neither section is in the ignored set. -/
theorem calculateTaskMoves_never_touches_ignored_witness :
    exIgnored exMoveNoDate.task.assigneeSection.name = false ∧
    exIgnored exMoveNoDate.sectionName = false :=
  calculateTaskMoves_never_touches_ignored [exTaskNoDate] DefaultSectionConfig
    exGidMap exIgnored exNow exMoveNoDate (by decide)

/-- C5: a task whose category's configured target section has no identifier
in the name→GID map is skipped silently — it appears in no emitted move (and
the planner is total: it returns a plain list, never an error). -/
theorem calculateTaskMoves_skips_missing_target_silently
    (tasks : List Task) (config : SectionConfig)
    (sectionNameToGID : String → Option String) (ignoredSections : String → Bool)
    (now : GoTime) (t : Task)
    (h : sectionNameToGID (GetCategoryToSectionMap config (t.GetTaskCategory now)) = none) :
    t ∉ (CalculateTaskMoves tasks config sectionNameToGID ignoredSections now).map
      TaskMove.task := by
  intro hmem
  obtain ⟨move, hmove, htask⟩ := List.mem_map.mp hmem
  obtain ⟨a, -, hsome⟩ := List.mem_filterMap.mp hmove
  obtain ⟨h1, -, -, -, h5, h6⟩ := moveForTask_some_spec _ _ _ _ a move hsome
  have hat : a = t := by rw [← h1, htask]
  subst hat
  rw [h6, h] at h5
  exact Option.noConfusion h5

/-- Witness for C5 at a concrete input: under an empty name→GID map the
configured target of the task's category has no identifier, and the task
appears in no emitted move. -/
theorem calculateTaskMoves_skips_missing_target_silently_witness :
    exGidMapEmpty
      (GetCategoryToSectionMap DefaultSectionConfig
        (Task.GetTaskCategory exTaskNoDate exNow)) = none ∧
    exTaskNoDate ∉ (CalculateTaskMoves [exTaskNoDate] DefaultSectionConfig
      exGidMapEmpty exIgnored exNow).map TaskMove.task :=
  ⟨rfl, calculateTaskMoves_skips_missing_target_silently _ _ _ _ _ _ rfl⟩

/-- C6 (code-bug evidence): with all five default sections missing and every
creation failing, `core.EnsureRequiredSections` invokes CreateSection only for
the first missing section ("Overdue") and returns an error — the remaining
four are never attempted — and `core.OrganizeTasks` then aborts the whole run
with that error; whereas the legacy `main.run` creation loop on the same
input attempts all five sections and continues, as the claim states. -/
theorem ensureRequiredSections_aborts_on_first_failure :
    (EnsureRequiredSections failingCreate DefaultSectionConfig exGidMapEmpty []).attempted
      = ["Overdue"] ∧
    (EnsureRequiredSections failingCreate DefaultSectionConfig exGidMapEmpty []).err
      = some "error creating section Overdue: boom" ∧
    OrganizeTasks exFailingCreateAPI DefaultSectionConfig false exNow
      = ([MutCall.createSection "utl1" "Overdue"],
         Except.error
           "error ensuring required sections: error creating section Overdue: boom") ∧
    (runCreateSectionsLoop failingCreate (requiredSections DefaultSectionConfig)
        exGidMapEmpty []).1
      = ["Overdue", "Due today", "Due within the next 7 days", "Due later",
         "Recently assigned"] :=
  ⟨rfl, rfl, rfl, rfl⟩

/-- The move-execution loop attempts every move in order and its error
counter is zero exactly when every remote move call succeeded. -/
theorem executeMovesLoop_spec (moveTaskToSection : String → String → Except String Unit)
    (taskMoves : List TaskMove) :
    (executeMovesLoop moveTaskToSection taskMoves).1 =
      taskMoves.map (fun move => (move.sectionGID, move.task.gid)) ∧
    ((executeMovesLoop moveTaskToSection taskMoves).2 = 0 ↔
      ∀ move ∈ taskMoves, (moveTaskToSection move.sectionGID move.task.gid).isOk = true) := by
  induction taskMoves with
  | nil => exact ⟨rfl, by simp [executeMovesLoop]⟩
  | cons m l ih =>
    constructor
    · unfold executeMovesLoop
      simp [ih.1]
    · unfold executeMovesLoop
      cases hm : moveTaskToSection m.sectionGID m.task.gid with
      | error e => simp [hm, Except.isOk, Except.toBool, ih.2]
      | ok u => simp [hm, Except.isOk, Except.toBool, ih.2]

/-- C7: executing a plan attempts every move, in plan order, regardless of
earlier failures (the attempted calls are exactly the plan, in order — in
particular nothing is rolled back), and an aggregate error is surfaced after
all attempts if and only if at least one individual move failed. -/
theorem executeTaskMoves_attempts_all_and_aggregates
    (moveTaskToSection : String → String → Except String Unit) (taskMoves : List TaskMove) :
    (ExecuteTaskMoves moveTaskToSection taskMoves).attempted =
      taskMoves.map (fun move => (move.sectionGID, move.task.gid)) ∧
    ((ExecuteTaskMoves moveTaskToSection taskMoves).err ≠ none ↔
      ∃ move ∈ taskMoves, (moveTaskToSection move.sectionGID move.task.gid).isOk = false) := by
  obtain ⟨h1, h2⟩ := executeMovesLoop_spec moveTaskToSection taskMoves
  cases taskMoves with
  | nil => exact ⟨rfl, by simp [ExecuteTaskMoves]⟩
  | cons m l =>
    refine ⟨h1, ?_⟩
    have herr : (ExecuteTaskMoves moveTaskToSection (m :: l)).err =
        (if 0 < (executeMovesLoop moveTaskToSection (m :: l)).2
         then some (toString (executeMovesLoop moveTaskToSection (m :: l)).2 ++
           " errors occurred while moving tasks")
         else none) := rfl
    rw [herr]
    by_cases h0 : (executeMovesLoop moveTaskToSection (m :: l)).2 = 0
    · rw [if_neg (by omega)]
      constructor
      · intro hne
        exact (hne rfl).elim
      · rintro ⟨mv, hmv, hfail⟩
        have hok := h2.mp h0 mv hmv
        rw [hok] at hfail
        exact absurd hfail (by decide)
    · rw [if_pos (by omega)]
      constructor
      · intro _
        by_contra hnex
        apply h0
        apply h2.mpr
        intro mv hmv
        by_contra hok
        exact hnex ⟨mv, hmv, by simpa using hok⟩
      · intro _
        simp

/-- C9: with the dry-run flag set, a run performs no remote mutation at all —
the trace of CreateSection and MoveTaskToSection calls is empty, whatever the
oracle answers. -/
theorem organizeTasks_dryRun_no_mutation (client : API) (config : SectionConfig)
    (now : GoTime) :
    (OrganizeTasks client config true now).1 = [] := by
  unfold OrganizeTasks
  cases client.getCurrentUser with
  | error e => rfl
  | ok user =>
    dsimp only
    cases client.getWorkspaces with
    | error e => rfl
    | ok workspaces =>
      dsimp only
      cases workspaces with
      | nil => rfl
      | cons w rest =>
        dsimp only
        cases client.getUserTaskList user.gid w.gid with
        | error e => rfl
        | ok utl =>
          dsimp only
          cases client.getSectionsForProject utl.gid with
          | error e => rfl
          | ok sections =>
            dsimp only
            cases client.getTasksFromUserTaskList utl.gid with
            | error e => rfl
            | ok allTasks => rfl

/-- The rendered ordinals are 1-based and consecutive. -/
theorem renderLines_map_ordinal (tasks : List Task) :
    (renderLines tasks).map TaskLine.ordinal = List.range' 1 tasks.length := by
  unfold renderLines
  rw [List.map_map]
  have h1 : (TaskLine.ordinal ∘ fun p : Nat × Task =>
      (⟨p.1 + 1, p.2.name, p.2.dueOn⟩ : TaskLine)) = ((fun n => n + 1) ∘ Prod.fst) := rfl
  rw [h1, ← List.map_map, List.enum_map_fst, List.range'_eq_map_range]
  congr 1
  funext n
  omega

/-- The rendered names are the tasks' names, in order. -/
theorem renderLines_map_name (tasks : List Task) :
    (renderLines tasks).map TaskLine.name = tasks.map Task.name := by
  unfold renderLines
  rw [List.map_map]
  have h1 : (TaskLine.name ∘ fun p : Nat × Task =>
      (⟨p.1 + 1, p.2.name, p.2.dueOn⟩ : TaskLine)) = (Task.name ∘ Prod.snd) := rfl
  rw [h1, ← List.map_map, List.enum_map_snd]

/-- The rendered due dates are the tasks' due dates, in order. -/
theorem renderLines_map_dueOn (tasks : List Task) :
    (renderLines tasks).map TaskLine.dueOn = tasks.map Task.dueOn := by
  unfold renderLines
  rw [List.map_map]
  have h1 : (TaskLine.dueOn ∘ fun p : Nat × Task =>
      (⟨p.1 + 1, p.2.name, p.2.dueOn⟩ : TaskLine)) = (Task.dueOn ∘ Prod.snd) := rfl
  rw [h1, ← List.map_map, List.enum_map_snd]

/-- C8 counterexample: the reverse of the five configured entries is a legal
Go map iteration order (a permutation of the entries), and under it the
presenter renders the nonempty groups as ["Due today", "Overdue"], which is
not the configuration-defined section-name order of the nonempty groups
(["Overdue", "Due today"]). -/
theorem displayTasks_order_not_config_defined :
    exIter.Perm (categoryToSectionEntries DefaultSectionConfig) ∧
    (DisplayTasks exCategorized exIter false).groups.map GroupRender.sectionName
      = ["Due today", "Overdue"] ∧
    (categoryToSectionEntries DefaultSectionConfig).filterMap
        (fun p => if (exCategorized p.1).isEmpty then none else some p.2)
      = ["Overdue", "Due today"] ∧
    (["Due today", "Overdue"] : List String) ≠ ["Overdue", "Due today"] :=
  ⟨List.reverse_perm _, rfl, rfl, by decide⟩

/-- C8 amended: the Presenter renders one group per nonempty category, in the
(unspecified, runtime-chosen) Go map iteration order — the rendered section
names are a permutation of the configuration-defined list of nonempty-group
names, not necessarily in that order — every group with zero tasks is omitted
entirely, and each rendered task line shows a 1-based consecutive ordinal,
the task name, and the due date when present. -/
theorem displayTasks_groups_spec
    (config : SectionConfig) (categorizedTasks : TaskCategory → List Task)
    (iter : List (TaskCategory × String)) (dryRun : Bool)
    (hiter : iter.Perm (categoryToSectionEntries config)) :
    ((DisplayTasks categorizedTasks iter dryRun).groups.map GroupRender.sectionName).Perm
      ((categoryToSectionEntries config).filterMap
        (fun p => if (categorizedTasks p.1).isEmpty then none else some p.2)) ∧
    ∀ g ∈ (DisplayTasks categorizedTasks iter dryRun).groups,
      0 < g.count ∧
      g.lines.map TaskLine.ordinal = List.range' 1 g.count ∧
      ∃ category, (category, g.sectionName) ∈ iter ∧
        g.count = (categorizedTasks category).length ∧
        g.lines.map TaskLine.name = (categorizedTasks category).map Task.name ∧
        g.lines.map TaskLine.dueOn = (categorizedTasks category).map Task.dueOn := by
  have hgroups : (DisplayTasks categorizedTasks iter dryRun).groups
      = iter.filterMap (fun p =>
          if (categorizedTasks p.1).isEmpty then none
          else some ⟨p.2, (categorizedTasks p.1).length,
            renderLines (categorizedTasks p.1)⟩) := rfl
  constructor
  · have hfg : ∀ p : TaskCategory × String,
        Option.map GroupRender.sectionName
          (if (categorizedTasks p.1).isEmpty then none
           else some (⟨p.2, (categorizedTasks p.1).length,
             renderLines (categorizedTasks p.1)⟩ : GroupRender))
        = (if (categorizedTasks p.1).isEmpty then none else some p.2) := by
      intro p
      by_cases hp : (categorizedTasks p.1).isEmpty <;> simp [hp]
    rw [hgroups, List.map_filterMap]
    simp only [hfg]
    exact hiter.filterMap _
  · intro g hg
    rw [hgroups] at hg
    obtain ⟨p, hp, hpg⟩ := List.mem_filterMap.mp hg
    by_cases hne : (categorizedTasks p.1).isEmpty
    · rw [if_pos hne] at hpg
      exact Option.noConfusion hpg
    · rw [if_neg hne] at hpg
      cases hpg
      have hlen : 0 < (categorizedTasks p.1).length :=
        List.length_pos.mpr (by simpa [List.isEmpty_iff] using hne)
      exact ⟨hlen, renderLines_map_ordinal _, p.1, by simpa using hp, rfl,
        renderLines_map_name _, renderLines_map_dueOn _⟩

/-- Witness for the amended C8 theorem at a concrete input: the reversed
entry order over `exCategorized`. -/
theorem displayTasks_groups_spec_witness :
    (((DisplayTasks exCategorized exIter false).groups.map
        GroupRender.sectionName).Perm
      ((categoryToSectionEntries DefaultSectionConfig).filterMap
        (fun p => if (exCategorized p.1).isEmpty then none else some p.2))) ∧
    ∀ g ∈ (DisplayTasks exCategorized exIter false).groups,
      0 < g.count ∧
      g.lines.map TaskLine.ordinal = List.range' 1 g.count ∧
      ∃ category, (category, g.sectionName) ∈ exIter ∧
        g.count = (exCategorized category).length ∧
        g.lines.map TaskLine.name = (exCategorized category).map Task.name ∧
        g.lines.map TaskLine.dueOn = (exCategorized category).map Task.dueOn :=
  displayTasks_groups_spec DefaultSectionConfig exCategorized exIter false
    (List.reverse_perm _)

end AsanaSorter
